import Mathlib

/-!
Verification of the recipe-recommendation engine in `app.py`.

The embedding models the two core units of the application:

* the input normalizer `bahan_pengguna` (app.py line 131), and
* the recommendation engine `rekomendasi_resep` (app.py lines 37-91).

Python `set`s of ingredient strings are modelled as `Finset String`.
Python string operations (`str.split`, `re.split`, `str.strip`,
`str.lower`) are modelled by structurally recursive functions on the
character list of a `String`, mirroring Python's semantics (splitting
keeps empty fragments, stripping removes leading/trailing whitespace,
lowering maps `Char.toLower` over the characters).  The floating-point
match score is modelled exactly in `ℚ`; Python's `round(x, 2)` is
modelled as round-half-up to two decimals (`round2`).  Python's list
slice `l[:n]` (including its negative-index semantics) is modelled by
`pySlice`.  `sorted(..., reverse=True)` is a stable descending sort and
is modelled by `List.insertionSort` with the reflexive "greater or
equal score" relation, which is stable and sorts descending.
-/

/-- Split a character list at every character satisfying `p`, keeping
empty fragments, as Python's `str.split(sep)` / `re.split` do. -/
def splitChars (p : Char → Bool) : List Char → List (List Char)
  | [] => [[]]
  | c :: rest =>
    if p c then [] :: splitChars p rest
    else
      match splitChars p rest with
      | [] => [[c]]
      | h :: t => (c :: h) :: t

/-- Remove leading and trailing whitespace characters, as Python's
`str.strip()` does. -/
def stripChars (l : List Char) : List Char :=
  ((l.dropWhile Char.isWhitespace).reverse.dropWhile Char.isWhitespace).reverse

/-- Python's `s.split(sep)` on strings (`sep` given as a character
predicate): empty fragments are kept and the result is never empty. -/
def pySplit (s : String) (p : Char → Bool) : List String :=
  (splitChars p s.data).map String.mk

/-- Python's `s.strip()`. -/
def pyStrip (s : String) : String :=
  String.mk (stripChars s.data)

/-- Python's `s.lower()`. -/
def pyLower (s : String) : String :=
  String.mk (s.data.map Char.toLower)

/-- Python's `s.strip().lower()`, the per-entry normalization used both
by the UI (app.py line 131) and inside the engine (app.py line 41). -/
def pyStripLower (s : String) : String :=
  String.mk ((stripChars s.data).map Char.toLower)

/-- Lexicographic comparison of character lists by code point, the
order Python's `sorted` uses on strings. -/
def lexLe : List Char → List Char → Bool
  | [], _ => true
  | _ :: _, [] => false
  | a :: as, b :: bs =>
    if a < b then true
    else if b < a then false
    else lexLe as bs

/-- Lexicographic order on strings (Python string comparison). -/
def strLe (a b : String) : Prop := lexLe a.data b.data = true

instance : DecidableRel strLe := fun a b => inferInstanceAs (Decidable (_ = true))

/-- A recipe row of the catalog (`df_resep`): title, source URL, raw
ingredient list (the parsed `bahan-bahan` column) and persona cluster. -/
structure Resep where
  judul_resep : String
  url_sumber : String
  bahan : List String
  cluster_persona : String
deriving DecidableEq

/-- An output record of `rekomendasi_resep` (app.py lines 80-87). -/
structure Rekomendasi where
  judul_resep : String
  url_sumber : String
  skor_cocok_persen : ℚ
  bahan_kurang : List String
  cluster_persona : String
  saran_cerdas : List String
deriving DecidableEq

/-- `bahan_saya_set` (app.py line 41): strip, lowercase and collapse the
raw user entries into a set. -/
def normSet (bahan_saya : List String) : Finset String :=
  (bahan_saya.map pyStripLower).toFinset

/-- `bahan_cocok` (app.py line 50): user set ∩ recipe ingredient set. -/
def bahanCocok (u : Finset String) (r : Resep) : Finset String :=
  u ∩ r.bahan.toFinset

/-- `bahan_kurang` (app.py line 51): recipe ingredient set − user set. -/
def bahanKurang (u : Finset String) (r : Resep) : Finset String :=
  r.bahan.toFinset \ u

/-- `skor_cocok` (app.py lines 53-56): |matched| / |recipe ingredients|
when the recipe has ingredients, otherwise 0. -/
def skorCocok (u : Finset String) (r : Resep) : ℚ :=
  if 0 < r.bahan.toFinset.card then
    ((bahanCocok u r).card : ℚ) / (r.bahan.toFinset.card : ℚ)
  else 0

/-- Python's `round(x, 2)`: round to two decimal places (modelled as
round half up on exact rationals). -/
def round2 (x : ℚ) : ℚ :=
  ((round (x * 100) : ℤ) : ℚ) / 100

/-- The antecedent of an association rule (app.py line 66): the key is
split at commas — with no trimming or case folding — and the fragments
are collapsed into a set. -/
def antecedentOf (key : String) : Finset String :=
  (pySplit key (fun c => c = ',')).toFinset

/-- The suggestion string of app.py line 72.  Python joins the
`antecedent` set; set iteration order is unspecified, so the model
joins the distinct fragments in first-occurrence order. -/
def renderSaran (key c : String) : String :=
  "`" ++ String.intercalate ", " (pySplit key (fun c => c = ',')).dedup ++
    "` banyak digunakan dengan **`" ++ c ++
    "`**, Anda mungkin juga tertarik untuk membeli **`" ++ c ++
    "`** sebagai pelengkap."

/-- The rule-scanning loop of app.py lines 65-78, returning the chosen
`(key, consequent)` pairs.  `acc` is the list of already-chosen rules
(`saran_cerdas_list` holds their rendered strings) and `sudah` is
`bahan_disarankan`; the loop stops once two suggestions are chosen. -/
def saranLoop (aturan : List (String × String)) (cocok resep : Finset String)
    (acc : List (String × String)) (sudah : Finset String) :
    List (String × String) :=
  match aturan with
  | [] => acc
  | (k, c) :: rest =>
    if antecedentOf k ⊆ cocok ∧ c ∉ resep ∧ c ∉ sudah then
      let acc' := acc ++ [(k, c)]
      if 2 ≤ acc'.length then acc'
      else saranLoop rest cocok resep acc' (insert c sudah)
    else saranLoop rest cocok resep acc sudah

/-- The chosen rules for one recipe (app.py lines 62-78): scan the rule
table in order starting from an empty suggestion list. -/
def saranTerpilih (aturan : List (String × String)) (cocok resep : Finset String) :
    List (String × String) :=
  saranLoop aturan cocok resep [] ∅

/-- The ascending listing of the missing-ingredient set
(`sorted(list(bahan_kurang))`, app.py line 84).  Python enumerates the
set in unspecified order and sorts it; the model enumerates the set as
the deduplicated ingredient list filtered to the non-owned entries and
sorts that — the same ascending duplicate-free listing. -/
def bahanKurangUrut (u : Finset String) (r : Resep) : List String :=
  List.insertionSort strLe (r.bahan.dedup.filter (fun b => b ∉ u))

/-- One output record (app.py lines 80-87). -/
def buatRekomendasi (aturan : List (String × String)) (u : Finset String)
    (r : Resep) : Rekomendasi where
  judul_resep := r.judul_resep
  url_sumber := r.url_sumber
  skor_cocok_persen := round2 (skorCocok u r * 100)
  bahan_kurang := bahanKurangUrut u r
  cluster_persona := r.cluster_persona
  saran_cerdas :=
    (saranTerpilih aturan (bahanCocok u r) r.bahan.toFinset).map
      (fun p => renderSaran p.1 p.2)

/-- `hasil_rekomendasi` (app.py lines 42-88) as a function of the
already-normalized user set: one record per catalog recipe with
positive score, in catalog order. -/
def hasilRekomendasi (u : Finset String) (df : List Resep)
    (aturan : List (String × String)) : List Rekomendasi :=
  (df.filter (fun r => 0 < skorCocok u r)).map (buatRekomendasi aturan u)

/-- The candidate list built by the engine from the raw user entries. -/
def kandidat (bahan_saya : List String) (df : List Resep)
    (aturan : List (String × String)) : List Rekomendasi :=
  hasilRekomendasi (normSet bahan_saya) df aturan

/-- The sort relation of app.py line 90: descending
`skor_cocok_persen`. -/
def skorGe (a b : Rekomendasi) : Prop :=
  b.skor_cocok_persen ≤ a.skor_cocok_persen

instance : DecidableRel skorGe := fun a b => inferInstanceAs (Decidable (_ ≤ _))

instance : IsTotal Rekomendasi skorGe := ⟨fun a b => le_total _ _⟩

instance : IsTrans Rekomendasi skorGe := ⟨fun _ _ _ h h' => le_trans h' h⟩

/-- `sorted(hasil_rekomendasi, key=skor, reverse=True)` (app.py line
90): Python's sort is stable, and a stable descending sort is exactly
insertion sort with the reflexive ≥-on-score relation. -/
def urutkan (l : List Rekomendasi) : List Rekomendasi :=
  List.insertionSort skorGe l

/-- Python's list slice `l[:n]` for an arbitrary integer `n`: for
`0 ≤ n` the first `n` elements; for `n < 0` all but the last `|n|`
elements. -/
def pySlice {α : Type} (l : List α) (n : ℤ) : List α :=
  if 0 ≤ n then l.take n.toNat else l.take (l.length - (-n).toNat)

/-- `rekomendasi_resep` (app.py lines 37-91). -/
def rekomendasi_resep (bahan_saya : List String) (df : List Resep)
    (aturan : List (String × String)) (top_n : ℤ) : List Rekomendasi :=
  pySlice (urutkan (kandidat bahan_saya df aturan)) top_n

/-- `bahan_pengguna` (app.py line 131): split the raw text at commas
and newlines, drop fragments that are blank after stripping, and
strip-and-lowercase the rest, in order. -/
def bahan_pengguna (input : String) : List String :=
  ((pySplit input (fun c => c = ',' || c = '\n')).filter
      (fun b => pyStrip b ≠ "")).map pyStripLower

/-- The normalizer as §4.1 of the specification words it: split at
commas and newlines, trim each fragment, case-fold each fragment to
lowercase, and discard fragments that are empty (after trimming). -/
def bahanPenggunaSpec (input : String) : List String :=
  ((((pySplit input (fun c => c = ',' || c = '\n')).map pyStrip).filter
      (fun b => b ≠ "")).map pyLower)

/-- 20001 pairwise distinct ingredient names: `"a"`, `"aa"`, ...,
`'a'` repeated 20001 times. -/
def bahanBesar : List String :=
  (List.range 20001).map (fun i => String.mk (List.replicate (i + 1) 'a'))

/-- A recipe whose ingredient list has 20001 pairwise distinct entries. -/
def resepBesar : Resep :=
  ⟨"resep besar", "u", bahanBesar, "c"⟩

theorem skorCocok_nonneg (u : Finset String) (r : Resep) : 0 ≤ skorCocok u r := by
  unfold skorCocok
  split
  · positivity
  · exact le_refl 0

theorem skorCocok_le_one (u : Finset String) (r : Resep) : skorCocok u r ≤ 1 := by
  unfold skorCocok
  split
  · rename_i h
    rw [div_le_one (by exact_mod_cast h)]
    exact_mod_cast Finset.card_le_card (Finset.inter_subset_right)
  · exact zero_le_one

theorem skorCocok_pos_iff (u : Finset String) (r : Resep) :
    0 < skorCocok u r ↔ 0 < (bahanCocok u r).card := by
  unfold skorCocok
  split
  · rename_i h
    rw [div_pos_iff]
    constructor
    · rintro (⟨h1, _⟩ | ⟨h1, h2⟩)
      · exact_mod_cast h1
      · exact absurd h1 (not_lt.mpr (Nat.cast_nonneg _))
    · intro hc
      exact Or.inl ⟨by exact_mod_cast hc, by exact_mod_cast h⟩
  · rename_i h
    have hempty : r.bahan.toFinset = ∅ := Finset.card_eq_zero.mp (by omega)
    constructor
    · intro h0
      exact absurd h0 (lt_irrefl 0)
    · intro hc
      have : bahanCocok u r = ∅ := by
        unfold bahanCocok
        rw [hempty, Finset.inter_empty]
      rw [this] at hc
      simp at hc

theorem round_mono_rat {a b : ℚ} (h : a ≤ b) : round a ≤ round b := by
  rw [round_eq, round_eq]
  exact Int.floor_le_floor (by linarith)

theorem round2_nonneg {x : ℚ} (h : 0 ≤ x) : 0 ≤ round2 x := by
  unfold round2
  have h1 : (0 : ℤ) ≤ round (x * 100) := by
    rw [round_eq]
    exact Int.floor_nonneg.mpr (by linarith)
  positivity

theorem round2_le_100 {x : ℚ} (h : x ≤ 100) : round2 x ≤ 100 := by
  unfold round2
  rw [div_le_iff₀ (by norm_num)]
  have h1 : round (x * 100) ≤ round ((10000 : ℚ)) := round_mono_rat (by linarith)
  have h2 : round ((10000 : ℚ)) = (10000 : ℤ) := by
    exact_mod_cast round_intCast (α := ℚ) 10000
  rw [h2] at h1
  exact_mod_cast h1

theorem round2_pos {x : ℚ} (h : 1 / 2 ≤ x * 100) : 0 < round2 x := by
  unfold round2
  have h1 : (1 : ℤ) ≤ round (x * 100) := by
    rw [round_eq]
    rw [Int.le_floor]
    push_cast
    linarith
  positivity

theorem lexLe_total : ∀ a b : List Char, lexLe a b = true ∨ lexLe b a = true
  | [], _ => Or.inl rfl
  | _ :: _, [] => Or.inr rfl
  | a :: as, b :: bs => by
    rcases lt_trichotomy a b with h | h | h
    · left
      simp [lexLe, h]
    · subst h
      have := lexLe_total as bs
      simpa [lexLe, lt_irrefl] using this
    · right
      simp [lexLe, h]

theorem lexLe_trans : ∀ {a b c : List Char},
    lexLe a b = true → lexLe b c = true → lexLe a c = true
  | [], _, _, _, _ => rfl
  | _ :: _, [], _, h, _ => by simp [lexLe] at h
  | _ :: _, _ :: _, [], _, h2 => by simp [lexLe] at h2
  | a :: as, b :: bs, c :: cs, h1, h2 => by
    by_cases hab : a < b
    · by_cases hbc : b < c
      · simp [lexLe, lt_trans hab hbc]
      · by_cases hcb : c < b
        · simp [lexLe, hbc, hcb] at h2
        · have : b = c := le_antisymm (not_lt.mp hcb) (not_lt.mp hbc)
          subst this
          simp [lexLe, hab]
    · by_cases hba : b < a
      · simp [lexLe, hab, hba] at h1
      · have hab' : a = b := le_antisymm (not_lt.mp hba) (not_lt.mp hab)
        subst hab'
        by_cases hac : a < c
        · simp [lexLe, hac]
        · by_cases hca : c < a
          · simp [lexLe, hac, hca] at h2
          · simp only [lexLe, if_neg hab, if_neg hac, if_neg hca] at h1 h2 ⊢
            exact lexLe_trans h1 h2

instance : IsTotal String strLe := ⟨fun a b => lexLe_total a.data b.data⟩

instance : IsTrans String strLe := ⟨fun _ _ _ h h' => lexLe_trans h h'⟩

theorem saranLoop_cons (k c : String) (rest : List (String × String))
    (cocok resep : Finset String) (acc : List (String × String)) (sudah : Finset String) :
    saranLoop ((k, c) :: rest) cocok resep acc sudah =
      if antecedentOf k ⊆ cocok ∧ c ∉ resep ∧ c ∉ sudah then
        (if 2 ≤ (acc ++ [(k, c)]).length then acc ++ [(k, c)]
         else saranLoop rest cocok resep (acc ++ [(k, c)]) (insert c sudah))
      else saranLoop rest cocok resep acc sudah := rfl

theorem saranLoop_shape (aturan : List (String × String)) (cocok resep : Finset String) :
    ∀ acc sudah, ∃ extra,
      saranLoop aturan cocok resep acc sudah = acc ++ extra ∧
      extra.Sublist aturan ∧
      (∀ p ∈ extra, antecedentOf p.1 ⊆ cocok ∧ p.2 ∉ resep ∧ p.2 ∉ sudah) ∧
      (extra.map Prod.snd).Nodup := by
  induction aturan with
  | nil =>
    intro acc sudah
    exact ⟨[], by simp [saranLoop]⟩
  | cons kc rest ih =>
    intro acc sudah
    obtain ⟨k, c⟩ := kc
    by_cases hcond : antecedentOf k ⊆ cocok ∧ c ∉ resep ∧ c ∉ sudah
    · by_cases hlen : 2 ≤ (acc ++ [(k, c)]).length
      · refine ⟨[(k, c)], ?_, ?_, ?_, ?_⟩
        · rw [saranLoop_cons, if_pos hcond, if_pos hlen]
        · exact (List.nil_sublist rest).cons₂ (k, c)
        · intro p hp
          rw [List.mem_singleton] at hp
          subst hp
          exact hcond
        · simp
      · obtain ⟨extra, heq, hsub, hprop, hnodup⟩ := ih (acc ++ [(k, c)]) (insert c sudah)
        refine ⟨(k, c) :: extra, ?_, ?_, ?_, ?_⟩
        · rw [saranLoop_cons, if_pos hcond, if_neg hlen, heq]
          simp
        · exact hsub.cons₂ (k, c)
        · intro p hp
          rcases List.mem_cons.mp hp with hp | hp
          · subst hp
            exact hcond
          · obtain ⟨h1, h2, h3⟩ := hprop p hp
            exact ⟨h1, h2, fun hmem => h3 (Finset.mem_insert_of_mem hmem)⟩
        · rw [List.map_cons, List.nodup_cons]
          refine ⟨?_, hnodup⟩
          intro hc
          rw [List.mem_map] at hc
          obtain ⟨p, hp, hpc⟩ := hc
          exact (hprop p hp).2.2 (hpc ▸ Finset.mem_insert_self p.2 sudah)
    · obtain ⟨extra, heq, hsub, hprop, hnodup⟩ := ih acc sudah
      refine ⟨extra, ?_, hsub.cons (k, c), hprop, hnodup⟩
      rw [saranLoop_cons, if_neg hcond]
      exact heq

theorem saranLoop_length_le (aturan : List (String × String)) (cocok resep : Finset String) :
    ∀ acc sudah, acc.length ≤ 1 →
      (saranLoop aturan cocok resep acc sudah).length ≤ 2 := by
  induction aturan with
  | nil =>
    intro acc sudah hacc
    simp only [saranLoop]
    omega
  | cons kc rest ih =>
    intro acc sudah hacc
    obtain ⟨k, c⟩ := kc
    by_cases hcond : antecedentOf k ⊆ cocok ∧ c ∉ resep ∧ c ∉ sudah
    · by_cases hlen : 2 ≤ (acc ++ [(k, c)]).length
      · rw [saranLoop_cons, if_pos hcond, if_pos hlen]
        simp only [List.length_append, List.length_singleton]
        omega
      · rw [saranLoop_cons, if_pos hcond, if_neg hlen]
        refine ih _ _ ?_
        simp only [List.length_append, List.length_singleton] at hlen ⊢
        omega
    · rw [saranLoop_cons, if_neg hcond]
      exact ih acc sudah hacc

theorem saranLoop_skip (k c : String) (cocok resep : Finset String)
    (hk : ¬ antecedentOf k ⊆ cocok) :
    ∀ (l₁ l₂ : List (String × String)) (acc : List (String × String)) (sudah : Finset String),
      saranLoop (l₁ ++ (k, c) :: l₂) cocok resep acc sudah =
        saranLoop (l₁ ++ l₂) cocok resep acc sudah := by
  intro l₁
  induction l₁ with
  | nil =>
    intro l₂ acc sudah
    rw [List.nil_append, List.nil_append, saranLoop_cons,
      if_neg (fun h => hk h.1)]
  | cons kc rest ih =>
    intro l₂ acc sudah
    obtain ⟨k', c'⟩ := kc
    rw [List.cons_append, List.cons_append, saranLoop_cons, saranLoop_cons]
    by_cases hcond : antecedentOf k' ⊆ cocok ∧ c' ∉ resep ∧ c' ∉ sudah
    · rw [if_pos hcond, if_pos hcond]
      by_cases hlen : 2 ≤ (acc ++ [(k', c')]).length
      · rw [if_pos hlen, if_pos hlen]
      · rw [if_neg hlen, if_neg hlen, ih]
    · rw [if_neg hcond, if_neg hcond, ih]

theorem pySlice_sublist {α : Type} (l : List α) (n : ℤ) : (pySlice l n).Sublist l := by
  unfold pySlice
  split
  · exact List.take_sublist _ _
  · exact List.take_sublist _ _

theorem length_pySlice_le {α : Type} (l : List α) (n : ℤ) (h : 0 ≤ n) :
    (pySlice l n).length ≤ n.toNat := by
  unfold pySlice
  rw [if_pos h]
  exact List.length_take_le _ _

theorem pySlice_zero {α : Type} (l : List α) : pySlice l 0 = [] := by
  unfold pySlice
  simp

theorem pySlice_neg {α : Type} (l : List α) (n : ℤ) (h : n < 0) :
    pySlice l n = l.take (l.length - (-n).toNat) := by
  unfold pySlice
  rw [if_neg (by omega)]

theorem filter_orderedInsert {α : Type} (r : α → α → Prop) [DecidableRel r]
    (p : α → Bool) (a : α) (l : List α)
    (h : ∀ b, p a = true → ¬ r a b → p b = false) :
    (List.orderedInsert r a l).filter p =
      if p a then a :: l.filter p else l.filter p := by
  induction l with
  | nil =>
    cases hpa : p a <;> simp [List.orderedInsert, List.filter, hpa]
  | cons b t ih =>
    by_cases hr : r a b
    · rw [List.orderedInsert, if_pos hr]
      cases hpa : p a <;> simp [List.filter_cons, hpa]
    · rw [List.orderedInsert, if_neg hr]
      cases hpa : p a
      · simp [List.filter_cons, ih, hpa]
      · have hpb : p b = false := h b hpa hr
        simp [List.filter_cons, ih, hpa, hpb]

theorem filter_insertionSort {α : Type} (r : α → α → Prop) [DecidableRel r]
    (p : α → Bool) (l : List α)
    (h : ∀ a b, p a = true → ¬ r a b → p b = false) :
    (List.insertionSort r l).filter p = l.filter p := by
  induction l with
  | nil => rfl
  | cons a t ih =>
    rw [List.insertionSort, filter_orderedInsert r p a _ (h a), List.filter_cons]
    cases hpa : p a <;> simp [ih]

theorem mem_kandidat {rec : Rekomendasi} {b : List String} {df : List Resep}
    {aturan : List (String × String)} (h : rec ∈ kandidat b df aturan) :
    ∃ r ∈ df, 0 < (bahanCocok (normSet b) r).card ∧
      rec = buatRekomendasi aturan (normSet b) r := by
  unfold kandidat hasilRekomendasi at h
  rw [List.mem_map] at h
  obtain ⟨r, hr, hrec⟩ := h
  rw [List.mem_filter] at hr
  refine ⟨r, hr.1, ?_, hrec.symm⟩
  rw [← skorCocok_pos_iff]
  exact of_decide_eq_true hr.2

theorem mem_rekomendasi {rec : Rekomendasi} {b : List String} {df : List Resep}
    {aturan : List (String × String)} {t : ℤ}
    (h : rec ∈ rekomendasi_resep b df aturan t) :
    ∃ r ∈ df, 0 < (bahanCocok (normSet b) r).card ∧
      rec = buatRekomendasi aturan (normSet b) r := by
  unfold rekomendasi_resep at h
  have h1 : rec ∈ urutkan (kandidat b df aturan) :=
    (pySlice_sublist _ _).subset h
  have h2 : rec ∈ kandidat b df aturan := by
    unfold urutkan at h1
    exact (List.mem_insertionSort skorGe).mp h1
  exact mem_kandidat h2

theorem kandidat_singleton {b : List String} {r : Resep}
    (aturan : List (String × String)) (h : 0 < (bahanCocok (normSet b) r).card) :
    kandidat b [r] aturan = [buatRekomendasi aturan (normSet b) r] := by
  unfold kandidat hasilRekomendasi
  have hpos : 0 < skorCocok (normSet b) r := (skorCocok_pos_iff _ _).mpr h
  simp [List.filter, hpos]

theorem rekomendasi_singleton {b : List String} {r : Resep}
    (aturan : List (String × String)) {t : ℤ}
    (h : 0 < (bahanCocok (normSet b) r).card) (ht : 1 ≤ t) :
    rekomendasi_resep b [r] aturan t = [buatRekomendasi aturan (normSet b) r] := by
  unfold rekomendasi_resep
  rw [kandidat_singleton aturan h]
  have hu : urutkan [buatRekomendasi aturan (normSet b) r] =
      [buatRekomendasi aturan (normSet b) r] := by
    simp [urutkan, List.insertionSort, List.orderedInsert]
  rw [hu]
  unfold pySlice
  rw [if_pos (by omega)]
  obtain ⟨n, hn⟩ : ∃ n, t.toNat = n + 1 := ⟨t.toNat - 1, by omega⟩
  rw [hn]
  simp

theorem bahanKurangUrut_perm (u : Finset String) (r : Resep) :
    (bahanKurangUrut u r).Perm (r.bahan.dedup.filter (fun b => b ∉ u)) :=
  List.perm_insertionSort strLe _

theorem mem_bahanKurangUrut {u : Finset String} {r : Resep} {x : String} :
    x ∈ bahanKurangUrut u r ↔ x ∈ r.bahan ∧ x ∉ u := by
  rw [(bahanKurangUrut_perm u r).mem_iff]
  simp

theorem bahanKurangUrut_toFinset (u : Finset String) (r : Resep) :
    (bahanKurangUrut u r).toFinset = bahanKurang u r := by
  ext x
  rw [List.mem_toFinset, mem_bahanKurangUrut]
  unfold bahanKurang
  rw [Finset.mem_sdiff, List.mem_toFinset]

theorem bahanKurangUrut_nodup (u : Finset String) (r : Resep) :
    (bahanKurangUrut u r).Nodup :=
  (bahanKurangUrut_perm u r).nodup_iff.mpr ((List.nodup_dedup _).filter _)

theorem bahanKurangUrut_sorted (u : Finset String) (r : Resep) :
    List.Sorted strLe (bahanKurangUrut u r) :=
  List.sorted_insertionSort strLe _

/-- Claim C1: for every recipe and user set, the engine's match score is
|U ∩ R.ingredients| / |R.ingredients| when the recipe has ingredients
and 0 when the ingredient set is empty; the score lies in [0, 1] and is
0 whenever the intersection is empty. -/
theorem claim_C1 (u : Finset String) (r : Resep) :
    (0 < r.bahan.toFinset.card →
      skorCocok u r = ((bahanCocok u r).card : ℚ) / (r.bahan.toFinset.card : ℚ)) ∧
    (r.bahan.toFinset = ∅ → skorCocok u r = 0) ∧
    0 ≤ skorCocok u r ∧ skorCocok u r ≤ 1 ∧
    (bahanCocok u r = ∅ → skorCocok u r = 0) := by
  refine ⟨?_, ?_, skorCocok_nonneg u r, skorCocok_le_one u r, ?_⟩
  · intro h
    unfold skorCocok
    rw [if_pos h]
  · intro h
    unfold skorCocok
    rw [if_neg (by simp [h])]
  · intro h
    unfold skorCocok
    rw [h]
    split <;> simp

theorem claim_C1_witness :
    0 < (Resep.mk "r" "u" ["garlic", "onion"] "c").bahan.toFinset.card ∧
    skorCocok {"garlic"} (Resep.mk "r" "u" ["garlic", "onion"] "c") =
      ((bahanCocok {"garlic"} (Resep.mk "r" "u" ["garlic", "onion"] "c")).card : ℚ) /
        ((Resep.mk "r" "u" ["garlic", "onion"] "c").bahan.toFinset.card : ℚ) :=
  ⟨by decide, (claim_C1 {"garlic"} (Resep.mk "r" "u" ["garlic", "onion"] "c")).1 (by decide)⟩

/-- Claim C9: the engine re-normalizes its user ingredient list (strip,
lowercase, collapse into a set), so two raw user lists with the same
normalized set — in particular lists differing only in case, surrounding
whitespace, duplication or order — yield identical output. -/
theorem claim_C9 (l₁ l₂ : List String) (df : List Resep)
    (aturan : List (String × String)) (t : ℤ)
    (h : normSet l₁ = normSet l₂) :
    rekomendasi_resep l₁ df aturan t = rekomendasi_resep l₂ df aturan t := by
  unfold rekomendasi_resep kandidat
  rw [h]

theorem claim_C9_witness :
    normSet ["Garlic ", "onion", "garlic"] = normSet ["onion", "GARLIC"] ∧
    rekomendasi_resep ["Garlic ", "onion", "garlic"]
        [Resep.mk "r" "u" ["garlic"] "c"] [] 5 =
      rekomendasi_resep ["onion", "GARLIC"]
        [Resep.mk "r" "u" ["garlic"] "c"] [] 5 :=
  ⟨by decide,
    claim_C9 ["Garlic ", "onion", "garlic"] ["onion", "GARLIC"]
      [Resep.mk "r" "u" ["garlic"] "c"] [] 5 (by decide)⟩

/-- Claim C10: rule antecedent keys are parsed by splitting at commas
only: for every key, the antecedent's members are exactly the raw
comma-split fragments, verbatim — no whitespace trimming and no case
folding is applied to them (a fragment carrying whitespace adjacent to
a comma, or uppercase letters, enters the set as that exact string).
Consequently a rule fires only when the matched set contains each
exact fragment string, so a key with a fragment that is not
strip-fixed never fires against a matched set of stripped tokens, and
a key with a fragment that is not lowercase-fixed never fires against
a matched set of lowercased tokens.  The key `"garlic, onion"` parsing
to `{"garlic", " onion"}` is the claim's concrete instance. -/
theorem claim_C10 (key : String) (cocok : Finset String) :
    antecedentOf "garlic, onion" = {"garlic", " onion"} ∧
    (∀ x, x ∈ antecedentOf key ↔ x ∈ pySplit key (fun c => c = ',')) ∧
    (antecedentOf key ⊆ cocok →
      ∀ b ∈ pySplit key (fun c => c = ','), b ∈ cocok) ∧
    ((∃ b ∈ pySplit key (fun c => c = ','), pyStrip b ≠ b) →
      (∀ x ∈ cocok, pyStrip x = x) → ¬ antecedentOf key ⊆ cocok) ∧
    ((∃ b ∈ pySplit key (fun c => c = ','), pyLower b ≠ b) →
      (∀ x ∈ cocok, pyLower x = x) → ¬ antecedentOf key ⊆ cocok) := by
  have hmem : ∀ x, x ∈ antecedentOf key ↔ x ∈ pySplit key (fun c => c = ',') := by
    intro x
    unfold antecedentOf
    exact List.mem_toFinset
  have hfire : antecedentOf key ⊆ cocok →
      ∀ b ∈ pySplit key (fun c => c = ','), b ∈ cocok := by
    intro hsub b hb
    exact hsub ((hmem b).mpr hb)
  refine ⟨by decide, hmem, hfire, ?_, ?_⟩
  · rintro ⟨b, hb, hbne⟩ htrim hsub
    exact hbne (htrim b (hfire hsub b hb))
  · rintro ⟨b, hb, hbne⟩ hlow hsub
    exact hbne (hlow b (hfire hsub b hb))

theorem claim_C10_witness :
    (∃ b ∈ pySplit "garlic, Onion" (fun c => c = ','), pyStrip b ≠ b) ∧
    (∃ b ∈ pySplit "garlic, Onion" (fun c => c = ','), pyLower b ≠ b) ∧
    (∀ x ∈ ({"garlic", "onion"} : Finset String), pyStrip x = x) ∧
    (∀ x ∈ ({"garlic", "onion"} : Finset String), pyLower x = x) ∧
    ¬ antecedentOf "garlic, Onion" ⊆ ({"garlic", "onion"} : Finset String) ∧
    ¬ antecedentOf " GARLIC" ⊆ ({"garlic"} : Finset String) :=
  ⟨by decide, by decide, by decide, by decide,
    (claim_C10 "garlic, Onion" {"garlic", "onion"}).2.2.2.1 (by decide) (by decide),
    (claim_C10 " GARLIC" {"garlic"}).2.2.2.2 (by decide) (by decide)⟩

/-- Claim C7: the normalizer splits the raw text at comma and newline
characters, strips each fragment, lowercases it, discards fragments
that are blank after stripping, and keeps the remaining fragments in
order without deduplication; blank input yields an empty list rather
than a failure.  The first conjunct is the refinement of the code
against the specification's pipeline (`bahanPenggunaSpec`). -/
theorem claim_C7 (s : String) :
    bahan_pengguna s = bahanPenggunaSpec s ∧
    bahan_pengguna "" = [] ∧
    ((∀ b ∈ pySplit s (fun c => c = ',' || c = '\n'), pyStrip b = "") →
      bahan_pengguna s = []) := by
  refine ⟨?_, by decide, ?_⟩
  · unfold bahan_pengguna bahanPenggunaSpec
    rw [List.filter_map, List.map_map]
    rfl
  · intro h
    unfold bahan_pengguna
    have : (pySplit s (fun c => c = ',' || c = '\n')).filter
        (fun b => pyStrip b ≠ "") = [] := by
      rw [List.filter_eq_nil_iff]
      intro b hb
      simp [h b hb]
    rw [this]
    rfl

theorem claim_C7_witness :
    (∀ b ∈ pySplit " ,\n , " (fun c => c = ',' || c = '\n'), pyStrip b = "") ∧
    bahan_pengguna " ,\n , " = [] :=
  ⟨by decide, (claim_C7 " ,\n , ").2.2 (by decide)⟩

/-- Claim C2: for nonnegative `topN` (the spec declares `topN` a
positive integer) the output has length at most `topN`, is sorted by
`skor_cocok_persen` descending, and entries with any fixed score value
appear exactly in the order the candidate list (which follows catalog
order) produces them — the sort is stable. -/
theorem claim_C2 (b : List String) (df : List Resep)
    (aturan : List (String × String)) (t : ℤ) (ht : 0 ≤ t) :
    (rekomendasi_resep b df aturan t).length ≤ t.toNat ∧
    List.Sorted skorGe (rekomendasi_resep b df aturan t) ∧
    ∀ q : ℚ,
      ((rekomendasi_resep b df aturan t).filter
          (fun x => x.skor_cocok_persen = q)).Sublist
        ((kandidat b df aturan).filter (fun x => x.skor_cocok_persen = q)) := by
  have hsorted : List.Sorted skorGe (urutkan (kandidat b df aturan)) :=
    List.sorted_insertionSort skorGe _
  refine ⟨length_pySlice_le _ _ ht, ?_, ?_⟩
  · exact List.Pairwise.sublist (pySlice_sublist _ _) hsorted
  · intro q
    have hstep : ((rekomendasi_resep b df aturan t).filter
        (fun x => x.skor_cocok_persen = q)).Sublist
        ((urutkan (kandidat b df aturan)).filter
          (fun x => x.skor_cocok_persen = q)) :=
      (pySlice_sublist _ _).filter _
    have hstable : ((urutkan (kandidat b df aturan)).filter
        (fun x => x.skor_cocok_persen = q)) =
        ((kandidat b df aturan).filter (fun x => x.skor_cocok_persen = q)) := by
      unfold urutkan
      refine filter_insertionSort skorGe _ _ ?_
      intro a c hpa hr
      rw [decide_eq_true_eq] at hpa
      rw [decide_eq_false_iff_not]
      unfold skorGe at hr
      rw [not_le] at hr
      intro hc
      rw [hpa] at hr
      rw [hc] at hr
      exact lt_irrefl q hr
    exact hstable ▸ hstep

theorem claim_C2_witness :
    (0 : ℤ) ≤ 2 ∧
    ((rekomendasi_resep ["a"]
        [Resep.mk "r1" "u" ["a"] "c", Resep.mk "r2" "u" ["a", "b"] "c",
          Resep.mk "r3" "u" ["a"] "c"] [] 2).length ≤ (2 : ℤ).toNat ∧
      List.Sorted skorGe (rekomendasi_resep ["a"]
        [Resep.mk "r1" "u" ["a"] "c", Resep.mk "r2" "u" ["a", "b"] "c",
          Resep.mk "r3" "u" ["a"] "c"] [] 2) ∧
      ∀ q : ℚ,
        ((rekomendasi_resep ["a"]
            [Resep.mk "r1" "u" ["a"] "c", Resep.mk "r2" "u" ["a", "b"] "c",
              Resep.mk "r3" "u" ["a"] "c"] [] 2).filter
            (fun x => x.skor_cocok_persen = q)).Sublist
          ((kandidat ["a"]
            [Resep.mk "r1" "u" ["a"] "c", Resep.mk "r2" "u" ["a", "b"] "c",
              Resep.mk "r3" "u" ["a"] "c"] []).filter
            (fun x => x.skor_cocok_persen = q))) :=
  ⟨by decide,
    claim_C2 ["a"]
      [Resep.mk "r1" "u" ["a"] "c", Resep.mk "r2" "u" ["a", "b"] "c",
        Resep.mk "r3" "u" ["a"] "c"] [] 2 (by decide)⟩

/-- Claim C3 fails on the code: with two qualifying recipes and
`topN = -1`, Python's slice `[:-1]` drops only the last entry, so the
result is nonempty. -/
theorem claim_C3_counterexample :
    rekomendasi_resep ["a"]
      [Resep.mk "r1" "u" ["a"] "c", Resep.mk "r2" "u" ["a"] "c"] [] (-1) ≠ [] := by
  have hk : (kandidat ["a"]
      [Resep.mk "r1" "u" ["a"] "c", Resep.mk "r2" "u" ["a"] "c"] []).length = 2 := by
    unfold kandidat hasilRekomendasi
    rw [List.length_map]
    have h1 : 0 < skorCocok (normSet ["a"]) (Resep.mk "r1" "u" ["a"] "c") :=
      (skorCocok_pos_iff _ _).mpr (by decide)
    have h2 : 0 < skorCocok (normSet ["a"]) (Resep.mk "r2" "u" ["a"] "c") :=
      (skorCocok_pos_iff _ _).mpr (by decide)
    simp [List.filter, h1, h2]
  have hlen : (rekomendasi_resep ["a"]
      [Resep.mk "r1" "u" ["a"] "c", Resep.mk "r2" "u" ["a"] "c"] [] (-1)).length = 1 := by
    unfold rekomendasi_resep
    rw [pySlice_neg _ _ (by norm_num), List.length_take]
    have hu : (urutkan (kandidat ["a"]
        [Resep.mk "r1" "u" ["a"] "c", Resep.mk "r2" "u" ["a"] "c"] [])).length = 2 := by
      unfold urutkan
      rw [List.length_insertionSort]
      exact hk
    rw [hu]
    decide
  intro hcontra
  rw [hcontra] at hlen
  simp at hlen

/-- Claim C3 amended: `topN = 0` yields an empty result, and the engine
never fails on non-positive `topN`; but a strictly negative `topN`
returns the sorted candidate list with its last `|topN|` entries
dropped, which is empty exactly when there are at most `|topN|`
candidates — not unconditionally. -/
theorem claim_C3 (b : List String) (df : List Resep)
    (aturan : List (String × String)) (t : ℤ) (ht : t < 0) :
    rekomendasi_resep b df aturan 0 = [] ∧
    rekomendasi_resep b df aturan t =
      (urutkan (kandidat b df aturan)).take
        ((kandidat b df aturan).length - (-t).toNat) ∧
    (rekomendasi_resep b df aturan t = [] ↔
      (kandidat b df aturan).length ≤ (-t).toNat) := by
  have hlen : (urutkan (kandidat b df aturan)).length =
      (kandidat b df aturan).length := by
    unfold urutkan
    exact List.length_insertionSort _ _
  refine ⟨?_, ?_, ?_⟩
  · unfold rekomendasi_resep
    exact pySlice_zero _
  · unfold rekomendasi_resep
    rw [pySlice_neg _ _ ht, hlen]
  · unfold rekomendasi_resep
    rw [pySlice_neg _ _ ht]
    constructor
    · intro h0
      have hlt := congrArg List.length h0
      rw [List.length_take, hlen] at hlt
      simp at hlt
      omega
    · intro hle
      have h0 : (urutkan (kandidat b df aturan)).length - (-t).toNat = 0 := by
        omega
      rw [h0, List.take_zero]

theorem claim_C3_witness :
    (-1 : ℤ) < 0 ∧
    (rekomendasi_resep ["a"] [Resep.mk "r1" "u" ["a"] "c"] [] 0 = [] ∧
      rekomendasi_resep ["a"] [Resep.mk "r1" "u" ["a"] "c"] [] (-1) =
        (urutkan (kandidat ["a"] [Resep.mk "r1" "u" ["a"] "c"] [])).take
          ((kandidat ["a"] [Resep.mk "r1" "u" ["a"] "c"] []).length - ((-(-1) : ℤ)).toNat) ∧
      (rekomendasi_resep ["a"] [Resep.mk "r1" "u" ["a"] "c"] [] (-1) = [] ↔
        (kandidat ["a"] [Resep.mk "r1" "u" ["a"] "c"] []).length ≤ ((-(-1) : ℤ)).toNat)) :=
  ⟨by decide, claim_C3 ["a"] [Resep.mk "r1" "u" ["a"] "c"] [] (-1) (by decide)⟩

/-- Claim C5: for every emitted recommendation (coming from recipe `r`),
`bahan_kurang` lists exactly the set `r.ingredients − U` — duplicate
free, in ascending lexicographic order — and contains no element of the
normalized user set. -/
theorem claim_C5 (b : List String) (df : List Resep)
    (aturan : List (String × String)) (t : ℤ) (rec : Rekomendasi)
    (h : rec ∈ rekomendasi_resep b df aturan t) :
    ∃ r ∈ df, rec = buatRekomendasi aturan (normSet b) r ∧
      rec.bahan_kurang.toFinset = bahanKurang (normSet b) r ∧
      rec.bahan_kurang.Nodup ∧
      List.Sorted strLe rec.bahan_kurang ∧
      ∀ x ∈ rec.bahan_kurang, x ∉ normSet b := by
  obtain ⟨r, hr, hpos, hrec⟩ := mem_rekomendasi h
  have hfield : rec.bahan_kurang = bahanKurangUrut (normSet b) r := by
    rw [hrec]
    rfl
  refine ⟨r, hr, hrec, ?_, ?_, ?_, ?_⟩
  · rw [hfield]
    exact bahanKurangUrut_toFinset _ _
  · rw [hfield]
    exact bahanKurangUrut_nodup _ _
  · rw [hfield]
    exact bahanKurangUrut_sorted _ _
  · rw [hfield]
    intro x hx
    exact (mem_bahanKurangUrut.mp hx).2

theorem claim_C5_witness :
    buatRekomendasi [] (normSet ["garlic"]) (Resep.mk "r" "u" ["garlic", "onion"] "c") ∈
      rekomendasi_resep ["garlic"] [Resep.mk "r" "u" ["garlic", "onion"] "c"] [] 5 ∧
    ∃ r ∈ [Resep.mk "r" "u" ["garlic", "onion"] "c"],
      buatRekomendasi [] (normSet ["garlic"]) (Resep.mk "r" "u" ["garlic", "onion"] "c") =
        buatRekomendasi [] (normSet ["garlic"]) r ∧
      (buatRekomendasi [] (normSet ["garlic"])
          (Resep.mk "r" "u" ["garlic", "onion"] "c")).bahan_kurang.toFinset =
        bahanKurang (normSet ["garlic"]) r ∧
      (buatRekomendasi [] (normSet ["garlic"])
          (Resep.mk "r" "u" ["garlic", "onion"] "c")).bahan_kurang.Nodup ∧
      List.Sorted strLe (buatRekomendasi [] (normSet ["garlic"])
          (Resep.mk "r" "u" ["garlic", "onion"] "c")).bahan_kurang ∧
      ∀ x ∈ (buatRekomendasi [] (normSet ["garlic"])
          (Resep.mk "r" "u" ["garlic", "onion"] "c")).bahan_kurang,
        x ∉ normSet ["garlic"] := by
  have hmem : buatRekomendasi [] (normSet ["garlic"])
      (Resep.mk "r" "u" ["garlic", "onion"] "c") ∈
      rekomendasi_resep ["garlic"] [Resep.mk "r" "u" ["garlic", "onion"] "c"] [] 5 := by
    rw [rekomendasi_singleton [] (by decide) (by norm_num)]
    exact List.mem_singleton_self _
  exact ⟨hmem, claim_C5 ["garlic"] [Resep.mk "r" "u" ["garlic", "onion"] "c"] [] 5 _ hmem⟩

/-- Claim C6: every emitted recommendation's suggestion list comes from
scanning the rule table in order: it has at most two entries, each
chosen rule's antecedent is contained in the matched set, no chosen
consequent is an ingredient of the recipe, the chosen consequents are
pairwise distinct, and the chosen rules form an in-order sublist of the
rule table. -/
theorem claim_C6 (b : List String) (df : List Resep)
    (aturan : List (String × String)) (t : ℤ) (rec : Rekomendasi)
    (h : rec ∈ rekomendasi_resep b df aturan t) :
    ∃ r ∈ df, rec = buatRekomendasi aturan (normSet b) r ∧
      rec.saran_cerdas =
        (saranTerpilih aturan (bahanCocok (normSet b) r) r.bahan.toFinset).map
          (fun p => renderSaran p.1 p.2) ∧
      rec.saran_cerdas.length ≤ 2 ∧
      (saranTerpilih aturan (bahanCocok (normSet b) r) r.bahan.toFinset).Sublist aturan ∧
      (∀ p ∈ saranTerpilih aturan (bahanCocok (normSet b) r) r.bahan.toFinset,
        antecedentOf p.1 ⊆ bahanCocok (normSet b) r ∧ p.2 ∉ r.bahan.toFinset) ∧
      ((saranTerpilih aturan (bahanCocok (normSet b) r) r.bahan.toFinset).map
        Prod.snd).Nodup := by
  obtain ⟨r, hr, hpos, hrec⟩ := mem_rekomendasi h
  obtain ⟨extra, heq, hsub, hprop, hnodup⟩ :=
    saranLoop_shape aturan (bahanCocok (normSet b) r) r.bahan.toFinset [] ∅
  have hterp : saranTerpilih aturan (bahanCocok (normSet b) r) r.bahan.toFinset
      = extra := by
    unfold saranTerpilih
    rw [heq]
    rfl
  have hfield : rec.saran_cerdas =
      (saranTerpilih aturan (bahanCocok (normSet b) r) r.bahan.toFinset).map
        (fun p => renderSaran p.1 p.2) := by
    rw [hrec]
    rfl
  refine ⟨r, hr, hrec, hfield, ?_, ?_, ?_, ?_⟩
  · rw [hfield, List.length_map]
    exact saranLoop_length_le aturan _ _ [] ∅ (by simp)
  · rw [hterp]
    exact hsub
  · rw [hterp]
    intro p hp
    exact ⟨(hprop p hp).1, (hprop p hp).2.1⟩
  · rw [hterp]
    exact hnodup

theorem claim_C6_witness :
    buatRekomendasi [("garlic", "ginger")] (normSet ["garlic"])
        (Resep.mk "r" "u" ["garlic", "onion"] "c") ∈
      rekomendasi_resep ["garlic"] [Resep.mk "r" "u" ["garlic", "onion"] "c"]
        [("garlic", "ginger")] 5 ∧
    (buatRekomendasi [("garlic", "ginger")] (normSet ["garlic"])
        (Resep.mk "r" "u" ["garlic", "onion"] "c")).saran_cerdas.length ≤ 2 := by
  have hmem : buatRekomendasi [("garlic", "ginger")] (normSet ["garlic"])
      (Resep.mk "r" "u" ["garlic", "onion"] "c") ∈
      rekomendasi_resep ["garlic"] [Resep.mk "r" "u" ["garlic", "onion"] "c"]
        [("garlic", "ginger")] 5 := by
    rw [rekomendasi_singleton [("garlic", "ginger")] (by decide) (by norm_num)]
    exact List.mem_singleton_self _
  obtain ⟨r, hr, hrec, hfield, hlen, hrest⟩ :=
    claim_C6 ["garlic"] [Resep.mk "r" "u" ["garlic", "onion"] "c"]
      [("garlic", "ginger")] 5 _ hmem
  exact ⟨hmem, hlen⟩

/-- Claim C8 fails on the code: an empty-string antecedent key splits to
`{""}` (not to an empty set), and when the empty string is both a user
entry and a recipe ingredient the "malformed" rule fires and changes
the output, instead of being skipped. -/
theorem claim_C8_counterexample :
    (rekomendasi_resep [""] [Resep.mk "r" "u" ["", "x"] "c"] [("", "y")] 5).map
        (fun rec => rec.saran_cerdas) = [[renderSaran "" "y"]] ∧
    (rekomendasi_resep [""] [Resep.mk "r" "u" ["", "x"] "c"] [] 5).map
        (fun rec => rec.saran_cerdas) = [[]] := by
  constructor
  · rw [rekomendasi_singleton [("", "y")] (by decide) (by norm_num)]
    show [(saranTerpilih [("", "y")]
        (bahanCocok (normSet [""]) (Resep.mk "r" "u" ["", "x"] "c"))
        (Resep.mk "r" "u" ["", "x"] "c").bahan.toFinset).map
          (fun p => renderSaran p.1 p.2)] = [[renderSaran "" "y"]]
    have hsel : saranTerpilih [("", "y")]
        (bahanCocok (normSet [""]) (Resep.mk "r" "u" ["", "x"] "c"))
        (Resep.mk "r" "u" ["", "x"] "c").bahan.toFinset = [("", "y")] := by decide
    rw [hsel]
    rfl
  · rw [rekomendasi_singleton [] (by decide) (by norm_num)]
    rfl

/-- Claim C8 amended: a rule with an empty-string key parses to the
antecedent `{""}`; whenever the empty string is not in the normalized
user set (in particular whenever every user entry strips to a non-empty
token) the rule is skipped and the output is exactly the output without
that rule, and the pass never fails.  (If `""` is both a user entry and
a recipe ingredient, the rule can fire — see the counterexample.) -/
theorem claim_C8 (b : List String) (df : List Resep)
    (l₁ l₂ : List (String × String)) (c : String) (t : ℤ)
    (h : "" ∉ normSet b) :
    rekomendasi_resep b df (l₁ ++ ("", c) :: l₂) t =
      rekomendasi_resep b df (l₁ ++ l₂) t := by
  have key : ∀ r : Resep,
      buatRekomendasi (l₁ ++ ("", c) :: l₂) (normSet b) r =
        buatRekomendasi (l₁ ++ l₂) (normSet b) r := by
    intro r
    have hk : ¬ antecedentOf "" ⊆ bahanCocok (normSet b) r := by
      intro hsub
      have h0 : "" ∈ bahanCocok (normSet b) r := hsub (by decide)
      unfold bahanCocok at h0
      exact h (Finset.mem_of_mem_inter_left h0)
    unfold buatRekomendasi saranTerpilih
    rw [saranLoop_skip "" c _ _ hk l₁ l₂ [] ∅]
  have keyfun : buatRekomendasi (l₁ ++ ("", c) :: l₂) (normSet b) =
      buatRekomendasi (l₁ ++ l₂) (normSet b) := funext key
  unfold rekomendasi_resep kandidat hasilRekomendasi
  rw [keyfun]

theorem claim_C8_witness :
    "" ∉ normSet ["garlic"] ∧
    rekomendasi_resep ["garlic"] [Resep.mk "r" "u" ["garlic"] "c"]
        ([("garlic", "x")] ++ ("", "y") :: []) 5 =
      rekomendasi_resep ["garlic"] [Resep.mk "r" "u" ["garlic"] "c"]
        ([("garlic", "x")] ++ []) 5 :=
  ⟨by decide,
    claim_C8 ["garlic"] [Resep.mk "r" "u" ["garlic"] "c"]
      [("garlic", "x")] [] "y" 5 (by decide)⟩

/-- Claim C4 amended: every emitted recommendation comes from a recipe
whose match score is strictly positive (it shares an ingredient with
the user set), and its `skor_cocok_persen` lies in [0, 100]; the
percentage is strictly positive whenever the recipe has at most 20000
ingredients, but for larger recipes the two-decimal rounding can send
it to 0 (see the counterexample). -/
theorem claim_C4 (b : List String) (df : List Resep)
    (aturan : List (String × String)) (t : ℤ) (rec : Rekomendasi)
    (h : rec ∈ rekomendasi_resep b df aturan t) :
    ∃ r ∈ df, rec = buatRekomendasi aturan (normSet b) r ∧
      0 < skorCocok (normSet b) r ∧
      (bahanCocok (normSet b) r).Nonempty ∧
      0 ≤ rec.skor_cocok_persen ∧
      rec.skor_cocok_persen ≤ 100 ∧
      (r.bahan.toFinset.card ≤ 20000 → 0 < rec.skor_cocok_persen) := by
  obtain ⟨r, hr, hpos, hrec⟩ := mem_rekomendasi h
  have hskor : 0 < skorCocok (normSet b) r := (skorCocok_pos_iff _ _).mpr hpos
  have hfield : rec.skor_cocok_persen = round2 (skorCocok (normSet b) r * 100) := by
    rw [hrec]
    rfl
  refine ⟨r, hr, hrec, hskor, Finset.card_pos.mp hpos, ?_, ?_, ?_⟩
  · rw [hfield]
    exact round2_nonneg (by nlinarith [skorCocok_nonneg (normSet b) r])
  · rw [hfield]
    exact round2_le_100 (by nlinarith [skorCocok_le_one (normSet b) r])
  · intro hcard
    rw [hfield]
    apply round2_pos
    have hn : 0 < r.bahan.toFinset.card := by
      by_contra hc
      unfold skorCocok at hskor
      rw [if_neg hc] at hskor
      exact lt_irrefl 0 hskor
    have hc1 : (1 : ℚ) ≤ ((bahanCocok (normSet b) r).card : ℚ) := by
      exact_mod_cast hpos
    have hn0 : (0 : ℚ) < (r.bahan.toFinset.card : ℚ) := by
      exact_mod_cast hn
    have hn2 : ((r.bahan.toFinset.card : ℚ)) ≤ 20000 := by
      exact_mod_cast hcard
    unfold skorCocok
    rw [if_pos hn]
    rw [div_mul_eq_mul_div, div_mul_eq_mul_div, le_div_iff₀ hn0]
    nlinarith

/-- Claim C4 fails as stated on the code: for a recipe with 20001
distinct ingredients of which the user matches one, the match score is
1/20001 > 0, but `round(score * 100, 2)` is 0, so the emitted
recommendation's `skor_cocok_persen` is 0, not strictly positive. -/
theorem claim_C4_counterexample :
    (rekomendasi_resep ["a"] [resepBesar] [] 5).map
      (fun rec => rec.skor_cocok_persen) = [0] := by
  have hbahan : resepBesar.bahan = bahanBesar := by
    simp only [resepBesar]
  have hmem : "a" ∈ bahanBesar := by
    unfold bahanBesar
    rw [List.mem_map]
    refine ⟨0, ?_, by decide⟩
    rw [List.mem_range]
    norm_num
  have hinj : Function.Injective (fun i : ℕ => String.mk (List.replicate (i + 1) 'a')) := by
    intro i j hij
    have hdata : List.replicate (i + 1) 'a' = List.replicate (j + 1) 'a' :=
      congrArg String.data hij
    have hlen := congrArg List.length hdata
    simp at hlen
    exact hlen
  have hnodup : bahanBesar.Nodup := by
    unfold bahanBesar
    exact (List.nodup_range 20001).map hinj
  have hcardS : resepBesar.bahan.toFinset.card = 20001 := by
    rw [hbahan, List.toFinset_card_of_nodup hnodup]
    unfold bahanBesar
    rw [List.length_map, List.length_range]
  have hU : normSet ["a"] = {"a"} := by decide
  have hcocok : bahanCocok (normSet ["a"]) resepBesar = {"a"} := by
    unfold bahanCocok
    rw [hU, hbahan]
    exact Finset.singleton_inter_of_mem (List.mem_toFinset.mpr hmem)
  have hpos : 0 < (bahanCocok (normSet ["a"]) resepBesar).card := by
    rw [hcocok]
    simp
  rw [rekomendasi_singleton [] hpos (by norm_num)]
  simp only [List.map_cons, List.map_nil]
  have hskor : skorCocok (normSet ["a"]) resepBesar = 1 / 20001 := by
    unfold skorCocok
    rw [if_pos (by rw [hcardS]; norm_num), hcocok, hcardS]
    norm_num
  have hfield : (buatRekomendasi [] (normSet ["a"]) resepBesar).skor_cocok_persen =
      round2 (skorCocok (normSet ["a"]) resepBesar * 100) := rfl
  rw [hfield, hskor]
  have hround : round ((1 : ℚ) / 20001 * 100 * 100) = 0 := by
    rw [round_eq, Int.floor_eq_zero_iff, Set.mem_Ico]
    norm_num
  unfold round2
  rw [hround]
  norm_num

theorem claim_C4_witness :
    buatRekomendasi [] (normSet ["onion"]) (Resep.mk "r" "u" ["onion", "salt"] "c") ∈
      rekomendasi_resep ["onion"] [Resep.mk "r" "u" ["onion", "salt"] "c"] [] 5 ∧
    ∃ r ∈ [Resep.mk "r" "u" ["onion", "salt"] "c"],
      buatRekomendasi [] (normSet ["onion"]) (Resep.mk "r" "u" ["onion", "salt"] "c") =
        buatRekomendasi [] (normSet ["onion"]) r ∧
      0 < skorCocok (normSet ["onion"]) r ∧
      (bahanCocok (normSet ["onion"]) r).Nonempty ∧
      0 ≤ (buatRekomendasi [] (normSet ["onion"])
        (Resep.mk "r" "u" ["onion", "salt"] "c")).skor_cocok_persen ∧
      (buatRekomendasi [] (normSet ["onion"])
        (Resep.mk "r" "u" ["onion", "salt"] "c")).skor_cocok_persen ≤ 100 ∧
      (r.bahan.toFinset.card ≤ 20000 →
        0 < (buatRekomendasi [] (normSet ["onion"])
          (Resep.mk "r" "u" ["onion", "salt"] "c")).skor_cocok_persen) := by
  have hmem : buatRekomendasi [] (normSet ["onion"])
      (Resep.mk "r" "u" ["onion", "salt"] "c") ∈
      rekomendasi_resep ["onion"] [Resep.mk "r" "u" ["onion", "salt"] "c"] [] 5 := by
    rw [rekomendasi_singleton [] (by decide) (by norm_num)]
    exact List.mem_singleton_self _
  exact ⟨hmem,
    claim_C4 ["onion"] [Resep.mk "r" "u" ["onion", "salt"] "c"] [] 5 _ hmem⟩
